import Mathlib

/-!
Verification of the `stackctl` development-loop coordinator
(`src/crates/stackable-cli/src/lib.rs`) against its natural-language
specification.  Each Rust function relevant to a claim is shallowly embedded
as an executable Lean definition; time is modelled in whole milliseconds as
`Nat`, subprocess and I/O outcomes are supplied as explicit oracle inputs,
and the async stream returned by `watch_changes` is modelled by the pure
function it computes on a chronologically ordered list of event times.
-/

namespace Stackctl

/-! ### ChangeWatcher: the debounce loop of `watch_changes` (lib.rs 90-113)

The `unfold` body waits for the first relevant event, then starts a single
100 ms sleep (`sleep_fur`).  The inner `select!` race keeps draining further
events, but the sleep is pinned outside the loop and is never restarted, so
every event arriving strictly before `first event time + 100` is coalesced;
when the sleep elapses, one timestamp (the current time, i.e. at least
`first event time + 100`) is emitted and the body returns to waiting for the
next event.  `debounceSkip interval deadline l` consumes the events of the
open window ending at `deadline`; `debounce` processes the entire
(already relevance-filtered) chronological event list, returning the emitted
trigger timestamps.  The model assumes the stream consumer polls promptly. -/

def debounceSkip (interval : Nat) (deadline : Nat) : List Nat → List Nat
  | [] => []
  | x :: rest =>
      if x < deadline then
        debounceSkip interval deadline rest
      else
        (x + interval) :: debounceSkip interval (x + interval) rest

/-- Embeds the debounced trigger stream built in `Stackctl::watch_changes`
(lib.rs 90-113): input is the chronological list of relevant event times (ms),
output is the list of emitted trigger timestamps. -/
def debounce (interval : Nat) : List Nat → List Nat
  | [] => []
  | t :: rest => (t + interval) :: debounceSkip interval (t + interval) rest

/-- If every event of the window is earlier than the deadline, the whole
window is coalesced and no further trigger arises from it. -/
theorem debounceSkip_eq_nil (interval deadline : Nat) (l : List Nat)
    (h : ∀ x ∈ l, x < deadline) : debounceSkip interval deadline l = [] := by
  induction l with
  | nil => rfl
  | cons x rest ih =>
      have hx : x < deadline := h x (List.mem_cons_self x rest)
      simp only [debounceSkip, if_pos hx]
      exact ih fun y hy => h y (List.mem_cons_of_mem x hy)

/-- If consecutive events are spaced more than `100` apart and the first one
lies at or past the current deadline, no coalescing happens: every event opens
its own window and contributes its own trigger. -/
theorem debounceSkip_length_of_spread (l : List Nat) :
    ∀ d, l.Chain' (fun a b => a + 100 < b) →
      (∀ x, l.head? = some x → d ≤ x) →
      (debounceSkip 100 d l).length = l.length := by
  induction l with
  | nil => intro d _ _; rfl
  | cons x rest ih =>
      intro d hc hd
      have hdx : d ≤ x := hd x rfl
      simp only [debounceSkip, if_neg (by omega : ¬ x < d), List.length_cons]
      have hc' : rest.Chain' (fun a b => a + 100 < b) := hc.tail
      have hd' : ∀ y, rest.head? = some y → x + 100 ≤ y := by
        intro y hy
        cases rest with
        | nil => simp at hy
        | cons z rest' =>
            have hz : x + 100 < z := (List.chain'_cons.1 hc).1
            simp only [List.head?_cons, Option.some.injEq] at hy
            omega
      rw [ih (x + 100) hc' hd']

/-- C1, counterexample: three relevant changes at 0 ms, 90 ms and 180 ms have
every consecutive pair less than 100 ms apart, yet the code emits TWO triggers
(at 100 ms and at 280 ms) because the 100 ms sleep in `watch_changes` is
started once per window at the first event and never restarted; moreover the
first trigger (100 ms) is EARLIER than the last change of the burst (180 ms).
This refutes the claim that such a burst yields exactly one trigger
timestamped after the last change. -/
theorem debounce_consecutive_close_two_triggers :
    List.Chain' (fun a b : Nat => b - a < 100) [0, 90, 180] ∧
    debounce 100 [0, 90, 180] = [100, 280] := by
  constructor
  · simp [List.chain'_cons, List.chain'_singleton]
  · rfl

/-- C1, amended: a burst of relevant changes all arriving strictly within
100 ms of the FIRST change of the burst (the debounce window is a fixed
100 ms interval anchored at the first event, not a sliding window from the
latest event) yields exactly one trigger, and that trigger timestamp
(`t + 100`) is later than every change of the burst. -/
theorem debounce_burst_single_trigger (t : Nat) (rest : List Nat)
    (h : ∀ x ∈ rest, x < t + 100) :
    debounce 100 (t :: rest) = [t + 100] ∧ ∀ x ∈ t :: rest, x < t + 100 := by
  constructor
  · simp only [debounce]
    rw [debounceSkip_eq_nil 100 (t + 100) rest h]
  · intro x hx
    rcases List.mem_cons.1 hx with hx | hx
    · omega
    · exact h x hx

/-- Witness for `debounce_burst_single_trigger` at the burst 0, 50, 99. -/
theorem debounce_burst_single_trigger_witness :
    debounce 100 (0 :: [50, 99]) = [0 + 100] ∧ ∀ x ∈ (0 : Nat) :: [50, 99], x < 0 + 100 :=
  debounce_burst_single_trigger 0 [50, 99] (by decide)

/-- C2: relevant events all falling strictly inside one 100 ms debounce window
(anchored at the first event) are coalesced into exactly one trigger, while
events spaced pairwise more than 100 ms apart each produce their own trigger,
so N such events produce N triggers. -/
theorem debounce_coalesce_and_spread (t : Nat) (rest l : List Nat)
    (hburst : ∀ x ∈ rest, x < t + 100)
    (hspread : l.Chain' (fun a b => a + 100 < b)) :
    debounce 100 (t :: rest) = [t + 100] ∧
    (debounce 100 l).length = l.length := by
  constructor
  · simp only [debounce]
    rw [debounceSkip_eq_nil 100 (t + 100) rest hburst]
  · cases l with
    | nil => rfl
    | cons x rest' =>
        simp only [debounce, List.length_cons]
        have hd : ∀ y, rest'.head? = some y → x + 100 ≤ y := by
          intro y hy
          cases rest' with
          | nil => simp at hy
          | cons z rest'' =>
              have hz : x + 100 < z := (List.chain'_cons.1 hspread).1
              simp only [List.head?_cons, Option.some.injEq] at hy
              omega
        rw [debounceSkip_length_of_spread rest' (x + 100) hspread.tail hd]

/-- Witness for `debounce_coalesce_and_spread`: the tight burst 0, 10 yields
one trigger and the spread events 0, 200, 400 yield three. -/
theorem debounce_coalesce_and_spread_witness :
    debounce 100 (0 :: [10]) = [0 + 100] ∧
    (debounce 100 [0, 200, 400]).length = [0, 200, 400].length :=
  debounce_coalesce_and_spread 0 [10] [0, 200, 400] (by decide)
    (by simp [List.chain'_cons, List.chain'_singleton])

/-! ### BuildPipeline: quiet attempt with escalation-to-verbose retry
(lib.rs 245-309 `build_frontend`, 311-379 `build_backend`)

Both functions follow the same shape: spawn the external tool once with
captured output and wait; if the exit status is unsuccessful, then in release
mode `bail!` immediately, otherwise spawn the same command once more with
output inherited by the console and `bail!` only if that second attempt also
fails.  The exit statuses of the two external processes are oracle inputs. -/

structure EscalationResult where
  /-- How many child processes were spawned for this build command. -/
  attempts : Nat
  /-- Whether a console-attached (verbose) retry was spawned. -/
  verboseRetry : Bool
  /-- Whether the function returned success. -/
  ok : Bool
  deriving DecidableEq, Repr

/-- Shared control flow of the two build functions: `quietOk` is the exit
status of the quiet attempt, `verboseOk` that of the console-attached retry
(consulted only when it is actually spawned). -/
def buildEscalation (isRel quietOk verboseOk : Bool) : EscalationResult :=
  if quietOk then ⟨1, false, true⟩
  else if isRel then ⟨1, false, false⟩
  else if verboseOk then ⟨2, true, true⟩
  else ⟨2, true, false⟩

/-- Embeds the escalation logic of `Stackctl::build_frontend` (lib.rs 289-308). -/
def build_frontend_escalation (isRel quietOk verboseOk : Bool) : EscalationResult :=
  buildEscalation isRel quietOk verboseOk

/-- Embeds the escalation logic of `Stackctl::build_backend` (lib.rs 362-379). -/
def build_backend_escalation (isRel quietOk verboseOk : Bool) : EscalationResult :=
  buildEscalation isRel quietOk verboseOk

/-- C3: when the quiet attempt fails, a release-mode build returns the failure
immediately and spawns no second attempt, while a non-release build spawns
exactly one console-attached retry and returns success exactly when that retry
succeeds; this holds for both `build_frontend` and `build_backend`. -/
theorem build_escalation_policy (vOk : Bool) :
    build_frontend_escalation true false vOk = ⟨1, false, false⟩ ∧
    build_frontend_escalation false false vOk = ⟨2, true, vOk⟩ ∧
    build_backend_escalation true false vOk = ⟨1, false, false⟩ ∧
    build_backend_escalation false false vOk = ⟨2, true, vOk⟩ := by
  cases vOk <;> exact ⟨rfl, rfl, rfl, rfl⟩

/-! ### DevLoop: the `run_serve` iteration loop (lib.rs 487-552)

One iteration of the outer loop does, in order: call `serve_once` (on `Ok`
exactly one server child is spawned; on `Err` the error is logged and no
server is recorded for the iteration); if the `open` flag is set and this is
the first iteration, invoke the external browser opener (whose failure is
propagated and aborts the loop); run the inner wait loop on the trigger
stream (a trigger strictly newer than the iteration start breaks the wait; the
stream ending breaks the outer loop, returning `Ok`); finally, if a server is
live, kill it — a kill failure is propagated and aborts the loop.

`IterEnv` packages the oracle outcomes of the effectful steps of one
iteration; `run_serve_aux` replays the loop over a finite list of them,
producing the ordered trace of observable process events plus how the loop
ended (`stillRunning` when the oracle list is exhausted mid-loop).  The inner
wait loop itself is embedded separately as `waitForChange` over the list of
remaining trigger timestamps; an `IterEnv.wait` value abstracts its outcome
(`newTrigger` for `WaitRes.trigger`, `ended` for `WaitRes.ended`). -/

inductive PEvent
  /-- `serve_once` succeeded: one backend server child was spawned. -/
  | spawn
  /-- the live server child was successfully killed -/
  | kill
  /-- the external browser opener was invoked -/
  | openBrowser
  /-- `serve_once` failed and the error was logged (`tracing::error`) -/
  | logError
  deriving DecidableEq, Repr

inductive WaitOutcome
  | newTrigger
  | ended
  deriving DecidableEq, Repr

inductive LoopResult
  /-- the trigger stream ended: `run_serve` returned `Ok` -/
  | ok
  /-- `open_browser` failed and the error was propagated -/
  | openError
  /-- `Child::kill` failed: the error is propagated, ending the whole loop -/
  | killError
  /-- the oracle list was exhausted while the loop was still running -/
  | stillRunning
  deriving DecidableEq, Repr

structure IterEnv where
  /-- whether `serve_once` returned `Ok` this iteration -/
  serveOk : Bool
  /-- whether `open_browser` succeeds, when it is invoked -/
  openOk : Bool
  /-- outcome of the inner wait loop on the trigger stream -/
  wait : WaitOutcome
  /-- whether `Child::kill` succeeds, when it is attempted -/
  killOk : Bool
  deriving DecidableEq, Repr

/-- Embeds the outer loop of `Stackctl::run_serve` (lib.rs 493-549); `first`
mirrors the `first_run` flag. -/
def run_serve_aux (openFlag : Bool) : Bool → List IterEnv → List PEvent × LoopResult
  | _, [] => ([], LoopResult.stillRunning)
  | first, e :: rest =>
      let t0 : List PEvent := if e.serveOk then [PEvent.spawn] else [PEvent.logError]
      let doOpen := openFlag && first
      let t1 := t0 ++ (if doOpen then [PEvent.openBrowser] else [])
      if doOpen && !e.openOk then
        (t1, LoopResult.openError)
      else
        match e.wait with
        | WaitOutcome.ended => (t1, LoopResult.ok)
        | WaitOutcome.newTrigger =>
            if e.serveOk then
              if e.killOk then
                let r := run_serve_aux openFlag false rest
                (t1 ++ PEvent.kill :: r.1, r.2)
              else
                (t1, LoopResult.killError)
            else
              let r := run_serve_aux openFlag false rest
              (t1 ++ r.1, r.2)

/-- Embeds `Stackctl::run_serve`: the loop starts with `first_run = true`. -/
def run_serve (openFlag : Bool) (envs : List IterEnv) : List PEvent × LoopResult :=
  run_serve_aux openFlag true envs

/-- Result of the inner wait loop: either a sufficiently new trigger was seen
(with the rest of the stream), or the stream ended. -/
inductive WaitRes
  | trigger (t : Nat) (rest : List Nat)
  | ended
  deriving DecidableEq, Repr

/-- Embeds the inner `'inner` wait loop of `run_serve` (lib.rs 535-544):
consume the trigger stream (modelled as the list of remaining trigger
timestamps; an exhausted list is the stream ending) until a trigger strictly
newer than `start` arrives. -/
def waitForChange (start : Nat) : List Nat → WaitRes
  | [] => WaitRes.ended
  | t :: rest => if start < t then WaitRes.trigger t rest else waitForChange start rest

/-- Net effect of a process event on the number of live server children. -/
def aliveDelta : PEvent → Int
  | PEvent.spawn => 1
  | PEvent.kill => -1
  | PEvent.openBrowser => 0
  | PEvent.logError => 0

/-- Number of live server children after a list of process events. -/
def aliveCount : List PEvent → Int
  | [] => 0
  | e :: rest => aliveDelta e + aliveCount rest

/-- Number of browser-opener invocations in a list of process events. -/
def openCount : List PEvent → Nat
  | [] => 0
  | PEvent.openBrowser :: rest => openCount rest + 1
  | _ :: rest => openCount rest

/-- Boolean check that, starting from `k` live servers, every intermediate
live-server count along the event list stays at most 1. -/
def boundOk : Int → List PEvent → Bool
  | _, [] => true
  | k, e :: rest => decide (k + aliveDelta e ≤ 1) && boundOk (k + aliveDelta e) rest

theorem aliveCount_append (a b : List PEvent) :
    aliveCount (a ++ b) = aliveCount a + aliveCount b := by
  induction a with
  | nil => simp [aliveCount]
  | cons e rest ih => simp [aliveCount, ih]; omega

theorem openCount_append (a b : List PEvent) :
    openCount (a ++ b) = openCount a + openCount b := by
  induction a with
  | nil => simp [openCount]
  | cons e rest ih =>
      cases e <;> (simp [openCount, ih]; try omega)

theorem boundOk_append (k : Int) (a b : List PEvent) :
    boundOk k (a ++ b) = (boundOk k a && boundOk (k + aliveCount a) b) := by
  induction a generalizing k with
  | nil => simp [boundOk, aliveCount]
  | cons e rest ih =>
      have h1 : boundOk k ((e :: rest) ++ b)
          = (decide (k + aliveDelta e ≤ 1) && boundOk (k + aliveDelta e) (rest ++ b)) := rfl
      have h2 : boundOk k (e :: rest)
          = (decide (k + aliveDelta e ≤ 1) && boundOk (k + aliveDelta e) rest) := rfl
      have h3 : k + aliveCount (e :: rest) = k + aliveDelta e + aliveCount rest := by
        show k + (aliveDelta e + aliveCount rest) = _
        omega
      rw [h1, h2, ih, Bool.and_assoc, h3]

theorem boundOk_take (k : Int) (l : List PEvent) (hk : k ≤ 1)
    (h : boundOk k l = true) : ∀ n, k + aliveCount (l.take n) ≤ 1 := by
  induction l generalizing k with
  | nil => intro n; simpa [aliveCount] using hk
  | cons e rest ih =>
      intro n
      simp only [boundOk, Bool.and_eq_true, decide_eq_true_eq] at h
      cases n with
      | zero => simpa [aliveCount] using hk
      | succ n =>
          simp only [List.take_succ_cons, aliveCount]
          have := ih (k + aliveDelta e) h.1 h.2 n
          omega

/-- Every iteration of the replayed loop keeps the running live-server count
at most 1: the head events of one iteration never exceed the bound and leave
zero live servers before the next iteration begins. -/
theorem run_serve_aux_boundOk (openFlag : Bool) (envs : List IterEnv) :
    ∀ first, boundOk 0 (run_serve_aux openFlag first envs).1 = true := by
  induction envs with
  | nil => intro first; rfl
  | cons e rest ih =>
      intro first
      rcases e with ⟨serveOk, openOk, wait, killOk⟩
      have ih' := ih false
      cases hdo : openFlag && first <;>
        cases serveOk <;> cases openOk <;> cases wait <;> cases killOk <;>
        simp [run_serve_aux, hdo, boundOk, aliveDelta, ih']

/-- C4: across any replay of the loop, at no point are two server children
alive (every prefix of the event trace has live count at most 1); a
steady-state iteration with a live server and a fresh trigger kills the
server before the next iteration starts, and a kill failure ends the whole
loop with the propagated error, spawning nothing further. -/
theorem run_serve_single_server (openFlag : Bool) (envs : List IterEnv) :
    (∀ n, aliveCount ((run_serve openFlag envs).1.take n) ≤ 1) ∧
    (∀ e rest, e.serveOk = true → e.wait = WaitOutcome.newTrigger → e.killOk = true →
      run_serve_aux openFlag false (e :: rest) =
        (PEvent.spawn :: PEvent.kill :: (run_serve_aux openFlag false rest).1,
         (run_serve_aux openFlag false rest).2)) ∧
    (∀ e rest, e.serveOk = true → e.wait = WaitOutcome.newTrigger → e.killOk = false →
      run_serve_aux openFlag false (e :: rest) = ([PEvent.spawn], LoopResult.killError)) := by
  refine ⟨?_, ?_, ?_⟩
  · intro n
    have h := boundOk_take 0 (run_serve openFlag envs).1 (by omega)
      (run_serve_aux_boundOk openFlag envs true) n
    omega
  · intro e rest hso hw hk
    rcases e with ⟨serveOk, openOk, wait, killOk⟩
    cases hso; cases hw; cases hk
    simp [run_serve_aux]
  · intro e rest hso hw hk
    rcases e with ⟨serveOk, openOk, wait, killOk⟩
    cases hso; cases hw; cases hk
    simp [run_serve_aux]

/-- Witness for `run_serve_single_server`: one iteration whose kill step
fails, checked at trace-prefix length 1. -/
theorem run_serve_single_server_witness :
    aliveCount ((run_serve false [⟨true, true, WaitOutcome.newTrigger, false⟩]).1.take 1) ≤ 1 ∧
    run_serve_aux false false [⟨true, true, WaitOutcome.newTrigger, false⟩] =
      ([PEvent.spawn], LoopResult.killError) :=
  ⟨(run_serve_single_server false [⟨true, true, WaitOutcome.newTrigger, false⟩]).1 1,
   (run_serve_single_server false []).2.2 ⟨true, true, WaitOutcome.newTrigger, false⟩ [] rfl rfl rfl⟩

/-- After the first iteration the `first_run` flag is false, so no later
iteration ever invokes the browser opener. -/
theorem run_serve_aux_notFirst_openCount (openFlag : Bool) (envs : List IterEnv) :
    openCount (run_serve_aux openFlag false envs).1 = 0 := by
  induction envs with
  | nil => rfl
  | cons e rest ih =>
      rcases e with ⟨serveOk, openOk, wait, killOk⟩
      cases serveOk <;> cases openOk <;> cases wait <;> cases killOk <;>
        simp [run_serve_aux, openCount, openCount_append, ih]

/-- C6, counterexample: with the open flag set and a first iteration whose
`serve_once` FAILS (and the trigger stream then ends), the trace still
contains a browser-opener invocation — the source guards the call only by
`open && first_run` (lib.rs 529-531), not by build success.  So the opener is
invoked on an iteration whose build failed, and before any successful
iteration exists, refuting the claim. -/
theorem run_serve_opens_on_failed_first_iteration :
    run_serve true [⟨false, true, WaitOutcome.ended, true⟩] =
      ([PEvent.logError, PEvent.openBrowser], LoopResult.ok) := rfl

/-- C6, amended: with the open flag set, the browser opener is invoked exactly
once across the whole loop lifetime, namely on the first iteration — whether
or not that iteration's build succeeded — and never on any later iteration;
without the flag it is never invoked. -/
theorem run_serve_opens_browser_once (openFlag : Bool) (envs : List IterEnv) :
    openCount (run_serve openFlag envs).1 =
      (if envs = [] then 0 else if openFlag then 1 else 0) ∧
    openCount (run_serve_aux openFlag false envs).1 = 0 := by
  refine ⟨?_, run_serve_aux_notFirst_openCount openFlag envs⟩
  cases envs with
  | nil => cases openFlag <;> rfl
  | cons e rest =>
      rcases e with ⟨serveOk, openOk, wait, killOk⟩
      have h0 := run_serve_aux_notFirst_openCount openFlag rest
      cases openFlag <;> cases serveOk <;> cases openOk <;> cases wait <;> cases killOk <;>
        simp [run_serve, run_serve_aux, openCount, openCount_append, h0]

/-- C8: an iteration whose `serve_once` fails only logs the error (no server
is spawned, no kill is attempted) and proceeds to the wait on the trigger
stream instead of aborting: a fresh trigger continues the loop with the
remaining iterations, while the stream ending returns `Ok` (clean exit).
Moreover the inner wait loop hands back a trigger only if it is strictly
newer than the iteration start time, and reports the stream ended exactly
when every remaining trigger is not newer than the start time.
(The first-iteration browser invocation under the open flag is the only
other step of the error branch; its oracle is fixed to success here.) -/
theorem run_serve_error_recovery :
    (∀ (openFlag first : Bool) (e : IterEnv) (rest : List IterEnv),
      e.serveOk = false → e.openOk = true →
      (e.wait = WaitOutcome.newTrigger →
        run_serve_aux openFlag first (e :: rest) =
          (PEvent.logError :: ((if openFlag && first then [PEvent.openBrowser] else []) ++
              (run_serve_aux openFlag false rest).1),
           (run_serve_aux openFlag false rest).2)) ∧
      (e.wait = WaitOutcome.ended →
        run_serve_aux openFlag first (e :: rest) =
          (PEvent.logError :: (if openFlag && first then [PEvent.openBrowser] else []),
           LoopResult.ok))) ∧
    (∀ (start : Nat) (l : List Nat) (t : Nat) (rest : List Nat),
      waitForChange start l = WaitRes.trigger t rest → start < t) ∧
    (∀ (start : Nat) (l : List Nat),
      waitForChange start l = WaitRes.ended ↔ ∀ x ∈ l, x ≤ start) := by
  refine ⟨?_, ?_, ?_⟩
  · intro openFlag first e rest hso hoo
    rcases e with ⟨serveOk, openOk, wait, killOk⟩
    cases hso; cases hoo
    constructor
    · intro hw; cases hw
      cases hdo : openFlag && first <;> simp [run_serve_aux, hdo]
    · intro hw; cases hw
      cases hdo : openFlag && first <;> simp [run_serve_aux, hdo]
  · intro start l
    induction l with
    | nil => intro t rest h; cases h
    | cons x rest' ih =>
        intro t rest h
        by_cases hx : start < x
        · simp only [waitForChange, if_pos hx, WaitRes.trigger.injEq] at h
          omega
        · simp only [waitForChange, if_neg hx] at h
          exact ih t rest h
  · intro start l
    induction l with
    | nil => simp [waitForChange]
    | cons x rest' ih =>
        by_cases hx : start < x
        · simp [waitForChange, if_pos hx]
          exact fun h => absurd hx (by omega)
        · simp only [waitForChange, if_neg hx, ih, List.mem_cons]
          constructor
          · intro h y hy
            rcases hy with hy | hy
            · omega
            · exact h y hy
          · intro h y hy
            exact h y (Or.inr hy)

/-- Witness for `run_serve_error_recovery`: a failed iteration followed by a
fresh trigger continues into the remaining (empty) iteration list, and the
wait loop on the stream 5, 20 with start time 10 yields the trigger 20. -/
theorem run_serve_error_recovery_witness :
    run_serve_aux false true [⟨false, true, WaitOutcome.newTrigger, true⟩] =
      (PEvent.logError :: ((if false && true then [PEvent.openBrowser] else []) ++
          (run_serve_aux false false []).1),
       (run_serve_aux false false []).2) ∧
    (waitForChange 10 [5, 20] = WaitRes.trigger 20 [] → 10 < 20) ∧
    (waitForChange 10 [5, 20] = WaitRes.ended ↔ ∀ x ∈ [5, 20], x ≤ 10) :=
  ⟨(run_serve_error_recovery.1 false true ⟨false, true, WaitOutcome.newTrigger, true⟩ []
      rfl rfl).1 rfl,
   run_serve_error_recovery.2.1 10 [5, 20] 20 [],
   run_serve_error_recovery.2.2 10 [5, 20]⟩

/-! ### ProcessSupervisor: the health-check polling loop of `serve_once`
(lib.rs 470-480)

After spawning the backend, the source loops
`while <http probe>.is_err() { sleep(1s) }`: the continue condition consults
ONLY the HTTP probe result; the spawned child process is not inspected.
`pollLoop probe fuel t` replays the loop from tick `t` for at most `fuel`
ticks (one tick per probe), returning the tick at which a probe first
succeeded, or `none` if the loop is still running when the fuel runs out.
(The rarely-failing `ClientBuilder::build` error path, which would abort
`serve_once`, is not modelled.) -/

def pollLoop (probe : Nat → Bool) : Nat → Nat → Option Nat
  | 0, _ => none
  | fuel + 1, t => if probe t then some t else pollLoop probe fuel (t + 1)

/-- The loop never terminates: for every fuel bound it is still running. -/
def pollNeverTerminates (probe : Nat → Bool) : Prop :=
  ∀ fuel t, pollLoop probe fuel t = none

/-- The HTTP probe responses seen when the spawned backend process exited
immediately (before ever becoming healthy): nothing listens on the address,
so no probe ever succeeds. -/
def exitedBackendProbe : Nat → Bool := fun _ => false

/-- C5, counterexample: the loop condition of `serve_once` consults only the
HTTP probe, so when the backend process has exited (and hence no probe ever
succeeds) the polling loop keeps running forever — it does not terminate when
the spawned process exits, refuting the claim that polling never continues
after the backend process has exited. -/
theorem poll_continues_after_backend_exit :
    pollNeverTerminates exitedBackendProbe := by
  intro fuel
  induction fuel with
  | zero => intro t; rfl
  | succ fuel ih => intro t; simpa [pollLoop, exitedBackendProbe] using ih (t + 1)

/-- C5, amended: the polling loop terminates exactly when a successful HTTP
response is observed — if it returns, the returned tick is the first probe
success, and a probe success terminates it at once; backend process exit is
not an input of the loop, so a backend that exits without ever answering
leaves the loop polling forever. -/
theorem poll_terminates_exactly_on_success (probe : Nat → Bool) (fuel t r : Nat) :
    (pollLoop probe fuel t = some r →
      probe r = true ∧ t ≤ r ∧ ∀ s, t ≤ s → s < r → probe s = false) ∧
    (probe t = true → 0 < fuel → pollLoop probe fuel t = some t) := by
  constructor
  · induction fuel generalizing t with
    | zero => intro h; cases h
    | succ fuel ih =>
        intro h
        by_cases hp : probe t
        · simp only [pollLoop, if_pos hp, Option.some.injEq] at h
          subst h
          exact ⟨hp, Nat.le_refl t, fun s hs hs' => absurd hs (by omega)⟩
        · simp only [pollLoop, if_neg hp] at h
          obtain ⟨h1, h2, h3⟩ := ih (t + 1) h
          refine ⟨h1, by omega, fun s hs hs' => ?_⟩
          rcases Nat.eq_or_lt_of_le hs with hs | hs
          · subst hs; exact Bool.eq_false_iff.2 hp
          · exact h3 s (by omega) hs'
  · intro hp hf
    cases fuel with
    | zero => omega
    | succ fuel => simp [pollLoop, hp]

/-- Witness for `poll_terminates_exactly_on_success`: a probe that succeeds
immediately terminates the loop at its start tick. -/
theorem poll_terminates_exactly_on_success_witness :
    pollLoop (fun _ => true) 1 0 = some 0 :=
  (poll_terminates_exactly_on_success (fun _ => true) 1 0 0).2 rfl (by decide)

/-! ### LogRelay: `transfer_to_file` (lib.rs 207-243)

The source first creates the target file with
`fs::File::create(..).await.with_context(..)?` — the `?` is executed in
`transfer_to_file` itself, BEFORE any task is spawned, so a create failure is
returned to the caller (and `build_frontend` / `build_backend` propagate it
further with `Self::transfer_to_file(..).await?`, lib.rs 273-287 and
346-360).  Only then is the copy loop (`inner`) spawned as a detached task
whose `JoinHandle` is discarded; an error inside that task is caught and
logged with `tracing::error` and the task ends.  The copy loop is replayed
over an oracle list of read/write outcomes. -/

inductive IoEvent
  /-- a read returned `len` bytes (`len = 0` is end of stream) and, for
  `len > 0`, the subsequent chunk write succeeded -/
  | readChunk (len : Nat)
  /-- a read returned an error -/
  | readFailed
  /-- a read succeeded but writing the chunk failed -/
  | writeFailed
  deriving DecidableEq, Repr

/-- Embeds the `inner` copy loop of `transfer_to_file` (lib.rs 217-231):
read a chunk, stop at end of stream, abort with the first I/O error.
An exhausted oracle list means the stream produced no further outcome. -/
def copyInner : List IoEvent → Except String Unit
  | [] => Except.ok ()
  | IoEvent.readChunk 0 :: _ => Except.ok ()
  | IoEvent.readChunk (_ + 1) :: rest => copyInner rest
  | IoEvent.readFailed :: _ => Except.error "failed to transfer logs"
  | IoEvent.writeFailed :: _ => Except.error "failed to transfer logs"

def exceptIsErr : Except String Unit → Bool
  | Except.error _ => true
  | Except.ok _ => false

structure RelayOutcome where
  /-- the value `transfer_to_file` returns to its caller -/
  callerResult : Except String Unit
  /-- whether a detached copy task was spawned (its handle is discarded, so
  the caller never waits for it) -/
  taskSpawned : Bool
  /-- whether the detached task caught and logged an error -/
  taskLogged : Bool
  deriving Repr

/-- Embeds `Stackctl::transfer_to_file` (lib.rs 207-243): `createOk` is the
outcome of `fs::File::create`, `evs` the oracle outcomes of the copy loop. -/
def transfer_to_file (createOk : Bool) (evs : List IoEvent) : RelayOutcome :=
  if createOk then
    { callerResult := Except.ok ()
      taskSpawned := true
      taskLogged := exceptIsErr (copyInner evs) }
  else
    { callerResult := Except.error "failed to create log file"
      taskSpawned := false
      taskLogged := false }

/-- C7, counterexample: when creating the target file fails, the error is
returned to the caller of `transfer_to_file` (and no relay task is spawned,
nothing is logged by a task) — refuting the claim that an I/O error at any
point, including failing to create the target file, is never propagated to
the caller. -/
theorem transfer_create_error_propagates :
    (transfer_to_file false []).callerResult = Except.error "failed to create log file" ∧
    (transfer_to_file false []).taskSpawned = false := by
  exact ⟨rfl, rfl⟩

/-- C7, amended: once the target file has been created, the caller always
receives `Ok` — its result does not depend on the copy outcomes at all, since
the copy runs in a detached task the caller never awaits — and an I/O error
inside the copy loop is logged by that task; only the synchronous creation of
the target file is propagated to the caller. -/
theorem transfer_copy_errors_isolated (evs evs' : List IoEvent) :
    (transfer_to_file true evs).callerResult = Except.ok () ∧
    (transfer_to_file true evs).callerResult = (transfer_to_file true evs').callerResult ∧
    (transfer_to_file true evs).taskSpawned = true ∧
    (transfer_to_file true evs).taskLogged = exceptIsErr (copyInner evs) ∧
    (transfer_to_file false evs).callerResult = Except.error "failed to create log file" := by
  exact ⟨rfl, rfl, rfl, rfl, rfl⟩

/-! ### One-shot build: `run_build` (lib.rs 554-583) -/

inductive BuildStep
  /-- a build output directory was created (`fs::create_dir_all`) -/
  | createBuildDir
  /-- the frontend bundler was invoked -/
  | frontendBuild
  /-- the backend compiler was invoked -/
  | backendBuild
  deriving DecidableEq, Repr

/-- Embeds `Stackctl::run_build` (lib.rs 554-583): the non-release request is
rejected by `bail!` before anything else happens; the release branch runs the
frontend build then the backend build (each first creating its build
directories), abstracted by their success oracles `fOk` and `bOk`.  Returns
the ordered list of performed steps and the result. -/
def run_build (release fOk bOk : Bool) : List BuildStep × Except String Unit :=
  if !release then
    ([], Except.error "building distributable in debug mode is not yet supported!")
  else if !fOk then
    ([BuildStep.createBuildDir, BuildStep.frontendBuild],
     Except.error "frontend build failed")
  else if !bOk then
    ([BuildStep.createBuildDir, BuildStep.frontendBuild,
      BuildStep.createBuildDir, BuildStep.backendBuild],
     Except.error "backend build failed")
  else
    ([BuildStep.createBuildDir, BuildStep.frontendBuild,
      BuildStep.createBuildDir, BuildStep.backendBuild],
     Except.ok ())

/-- C9: a one-shot build without the release flag always returns the
descriptive error of lib.rs 556, and its step trace is empty — no build step
runs and no build directory is created before failing, whatever the build
oracles would have said. -/
theorem run_build_rejects_debug (fOk bOk : Bool) :
    run_build false fOk bOk =
      ([], Except.error "building distributable in debug mode is not yet supported!") := rfl

/-! ### Backend artifact location in `build_backend` (lib.rs 323-342, 401-415)

The build command is `cargo build --bin <bin_name>`, with `--release`
appended only in release mode (`is_release`, lib.rs 116-121: `Serve` is
non-release, `Build` is release).  After a successful build the binary is
copied from `<cargo target_directory>/release/<bin_name>` — the source joins
the literal segment `release` without consulting the mode. -/

inductive CliCommand
  /-- `stackctl serve [--open]` -/
  | serve (openFlag : Bool)
  /-- `stackctl build [--release]` -/
  | build (release : Bool)
  deriving DecidableEq, Repr

/-- Embeds `Stackctl::is_release` (lib.rs 116-121). -/
def is_release : CliCommand → Bool
  | CliCommand.serve _ => false
  | CliCommand.build _ => true

/-- Arguments of the backend build invocation (lib.rs 323-342). -/
def backendBuildArgs (binName : String) (cmd : CliCommand) : List String :=
  ["build", "--bin", binName] ++ (if is_release cmd then ["--release"] else [])

/-- Path the compiled backend binary is copied FROM (lib.rs 404-407):
`target_directory/release/bin_name`.  The command (mode) parameter is ignored,
mirroring the source, which never consults the mode here. -/
def build_backend_bin_src (_cmd : CliCommand) (targetDir binName : String) : String :=
  targetDir ++ "/release/" ++ binName

/-- C10: the backend build in Serve (non-release) mode runs `cargo build`
without `--release` (so cargo writes its output under the debug directory),
while in Build mode `--release` is appended; yet the artifact copied by
`build_backend` is sourced from the fixed `release` subdirectory of the cargo
target directory in both modes — in particular the Serve-mode source path is
not the debug output directory of the build just performed. -/
theorem backend_artifact_from_release_dir (td bin : String) (oflag rflag : Bool) :
    backendBuildArgs bin (CliCommand.serve oflag) = ["build", "--bin", bin] ∧
    backendBuildArgs bin (CliCommand.build rflag) =
      ["build", "--bin", bin, "--release"] ∧
    build_backend_bin_src (CliCommand.serve oflag) td bin =
      build_backend_bin_src (CliCommand.build rflag) td bin ∧
    build_backend_bin_src (CliCommand.serve oflag) td bin = td ++ "/release/" ++ bin ∧
    build_backend_bin_src (CliCommand.serve oflag) td bin ≠ td ++ "/debug/" ++ bin := by
  refine ⟨rfl, rfl, rfl, rfl, fun h => ?_⟩
  have hlen := congrArg String.length h
  have h1 : ("/release/" : String).length = 9 := rfl
  have h2 : ("/debug/" : String).length = 7 := rfl
  simp only [build_backend_bin_src, String.length_append, h1, h2] at hlen
  omega

end Stackctl
